import Mathlib

/-!
Verification of the caching / connection-reuse core of the `rest` package
(`src/rest/net.go`): a shallow embedding of `doRequest`, `setParams`,
`connect`, `setTTL`, `setLastModified` and `setETag`, and theorems settling
the claims about them.

Conventions of the embedding:
* Machine integers are `Int` with explicit wrapping (`wrap64`) where Go's
  `int64` arithmetic can overflow.
* Instants are `Int` nanoseconds since the Unix epoch; each `time.Now()`
  observation is supplied by an oracle.
* Go's `time.Parse` / `time.Format` are modelled specialized to the layout
  string `httpDateFormat` that the source uses.
* Stateful code is modelled by explicit state passing; external effects
  (marshalling, URL parsing, the network round trip) are supplied by an
  oracle record so every control-flow branch of the source is reachable.
-/

namespace Restful

/-! ### Header maps

Go's `http.Header` restricted to the operations the source uses:
`Set` (replace all values of a key by one value) and `Get` (first value,
or "" when absent).  Keys are compared literally; all keys appearing in
the source are already in canonical MIME form. -/

abbrev HeaderMap := List (String × String)

def hGet (h : HeaderMap) (k : String) : String :=
  match h.find? (fun p => p.1 == k) with
  | some p => p.2
  | none => ""

def hSet (h : HeaderMap) (k v : String) : HeaderMap :=
  (k, v) :: h.filter (fun p => p.1 != k)

def lookupA {α : Type} (m : List (String × α)) (k : String) : Option α :=
  (m.find? (fun p => p.1 == k)).map (fun p => p.2)

/-! ### Go `time.Parse` specialized to the source's layout

`net.go` line 21: `var httpDateFormat = "Mon, 01 Jan 2006 15:04:05 GMT"`.
In Go's reference-time notation `01` is the zero-padded numeric *month*
(the day of month would be `02`), so this layout contains two month fields
and no day field.  The parser below reproduces Go's `time.Parse` on this
exact chunk sequence: short weekday name (syntax-checked, otherwise
ignored), literal ", ", two-digit month (range-checked 1..12), literal " ",
short month name (overwrites the numeric month), literal " ", four-digit
year, literal " ", one-or-two-digit hour (< 24), ":", two-digit minute
(< 60), ":", two-digit second (< 60), an optional fractional-second run
(at most nine digits, value ignored here), literal " GMT", end of input.
The day of month is never parsed and defaults to 1. -/

def httpDateFormat : String := "Mon, 01 Jan 2006 15:04:05 GMT"

def isDigitChar (c : Char) : Bool := '0' ≤ c && c ≤ '9'

def dVal (c : Char) : Nat := c.toNat - 48

/-- Go `time.match` on a single byte: equal, or equal after ASCII
case-folding (`c |= 0x20`) when the folded byte is a lowercase letter. -/
def goFoldEq (a b : Char) : Bool :=
  a == b ||
    (let a1 := a.toNat ||| 32
     let b1 := b.toNat ||| 32
     a1 == b1 && 97 ≤ a1 && a1 ≤ 122)

def foldEqList : List Char → List Char → Bool
  | [], [] => true
  | a :: as, b :: bs => goFoldEq a b && foldEqList as bs
  | _ :: _, [] => false
  | [], _ :: _ => false

/-- Go `time.lookup`: first table entry that is a case-insensitive
prefix of the input wins; returns its index and the rest of the input. -/
def lookupNameAux (names : List (List Char)) (i : Nat) (s : List Char) :
    Option (Nat × List Char) :=
  match names with
  | [] => none
  | n :: rest =>
    if foldEqList n (s.take n.length) then some (i, s.drop n.length)
    else lookupNameAux rest (i + 1) s

/-- Literal layout text must match the input exactly (case-sensitive). -/
def litChomp : List Char → List Char → Option (List Char)
  | [], rest => some rest
  | a :: as, b :: bs => if a == b then litChomp as bs else none
  | _ :: _, [] => none

/-- Go `getnum` with `fixed = true` (layouts "01", "04", "05"):
exactly two digits. -/
def getnum2 (s : List Char) : Option (Nat × List Char) :=
  match s with
  | c1 :: c2 :: rest =>
    if isDigitChar c1 && isDigitChar c2 then
      some (10 * dVal c1 + dVal c2, rest)
    else none
  | _ => none

/-- Go `getnum` with `fixed = false` (layout "15"): one digit, or two
when the second character is also a digit. -/
def getnum1or2 (s : List Char) : Option (Nat × List Char) :=
  match s with
  | c1 :: rest =>
    if isDigitChar c1 then
      match rest with
      | c2 :: rest2 =>
        if isDigitChar c2 then some (10 * dVal c1 + dVal c2, rest2)
        else some (dVal c1, rest)
      | [] => some (dVal c1, [])
    else none
  | [] => none

/-- Go `stdLongYear`: exactly four digits. -/
def getnum4 (s : List Char) : Option (Nat × List Char) :=
  match s with
  | c1 :: c2 :: c3 :: c4 :: rest =>
    if isDigitChar c1 && isDigitChar c2 && isDigitChar c3 && isDigitChar c4 then
      some (1000 * dVal c1 + 100 * dVal c2 + 10 * dVal c3 + dVal c4, rest)
    else none
  | _ => none

def shortDayNames : List (List Char) :=
  ["Sun".data, "Mon".data, "Tue".data, "Wed".data, "Thu".data, "Fri".data,
   "Sat".data]

def shortMonthNames : List (List Char) :=
  ["Jan".data, "Feb".data, "Mar".data, "Apr".data, "May".data, "Jun".data,
   "Jul".data, "Aug".data, "Sep".data, "Oct".data, "Nov".data, "Dec".data]

structure ParsedTime where
  year : Nat
  month : Nat
  day : Nat
  hour : Nat
  minute : Nat
  second : Nat
deriving DecidableEq, Repr

/-- After the seconds field Go consumes an optional `.ddd` / `,ddd`
fractional-second run (at most nine digits); its value does not matter
for any header handled here. -/
def skipFrac (s : List Char) : Option (List Char) :=
  match s with
  | c :: c2 :: rest =>
    if (c == '.' || c == ',') && isDigitChar c2 then
      let ds := (c2 :: rest).takeWhile isDigitChar
      if ds.length > 9 then none
      else some ((c2 :: rest).dropWhile isDigitChar)
    else some s
  | _ => some s

/-- Go `time.Parse httpDateFormat value`, returning the broken-down UTC
time on success.  Because the layout has no day-of-month field, `day` is
always the default 1, and the numeric month parsed by the `01` chunk is
overwritten by the month-name chunk.  Written as one nested match per
layout chunk, mirroring Go's sequential chunk loop. -/
def goParseHTTPDate (value : String) : Option ParsedTime :=
  match lookupNameAux shortDayNames 0 value.data with
  | none => none
  | some (_wd, s1) =>
  match litChomp [',', ' '] s1 with
  | none => none
  | some s2 =>
  match getnum2 s2 with
  | none => none
  | some (m1, s3) =>
  if !(1 ≤ m1 && m1 ≤ 12) then none else
  match litChomp [' '] s3 with
  | none => none
  | some s4 =>
  match lookupNameAux shortMonthNames 0 s4 with
  | none => none
  | some (mIdx, s5) =>
  match litChomp [' '] s5 with
  | none => none
  | some s6 =>
  match getnum4 s6 with
  | none => none
  | some (year, s7) =>
  match litChomp [' '] s7 with
  | none => none
  | some s8 =>
  match getnum1or2 s8 with
  | none => none
  | some (hour, s9) =>
  if !(hour < 24) then none else
  match litChomp [':'] s9 with
  | none => none
  | some s10 =>
  match getnum2 s10 with
  | none => none
  | some (minute, s11) =>
  if !(minute < 60) then none else
  match litChomp [':'] s11 with
  | none => none
  | some s12 =>
  match getnum2 s12 with
  | none => none
  | some (second, s13) =>
  if !(second < 60) then none else
  match skipFrac s13 with
  | none => none
  | some s14 =>
  match litChomp [' ', 'G', 'M', 'T'] s14 with
  | none => none
  | some s15 =>
  if !s15.isEmpty then none else
  some { year := year, month := mIdx + 1, day := 1, hour := hour,
         minute := minute, second := second }

/-! ### Proleptic-Gregorian calendar arithmetic (UTC instants) -/

def isLeap (y : Nat) : Bool := (y % 4 == 0 && y % 100 != 0) || y % 400 == 0

/-- Days from 0000-01-01 to the start of year `y`. -/
def daysBeforeYear (y : Nat) : Nat :=
  365 * y + (y + 3) / 4 - (y + 99) / 100 + (y + 399) / 400

def monthOffsets : List Nat :=
  [0, 0, 31, 59, 90, 120, 151, 181, 212, 243, 273, 304, 334]

def daysBeforeMonth (y m : Nat) : Nat :=
  let base := monthOffsets.getD m 0
  if 2 < m && isLeap y then base + 1 else base

def dayNumber (t : ParsedTime) : Nat :=
  daysBeforeYear t.year + daysBeforeMonth t.year t.month + (t.day - 1)

/-- `dayNumber` of 1970-01-01. -/
def epochDayNumber : Nat := 719528

def toEpochNanos (t : ParsedTime) : Int :=
  (((dayNumber t : Int) - (epochDayNumber : Int)) * 86400 +
    (t.hour : Int) * 3600 + (t.minute : Int) * 60 + (t.second : Int)) *
    1000000000

/-- Weekday with Sunday = 0 (0000-01-01 of the proleptic Gregorian
calendar is a Saturday). -/
def weekdayOf (t : ParsedTime) : Nat := (dayNumber t + 6) % 7

/-! ### Go `time.Format` on the same layout -/

def pad2 (n : Nat) : String := if n < 10 then "0" ++ toString n else toString n

def pad4 (n : Nat) : String :=
  if n < 10 then "000" ++ toString n
  else if n < 100 then "00" ++ toString n
  else if n < 1000 then "0" ++ toString n
  else toString n

def dayNameStr : List String := ["Sun", "Mon", "Tue", "Wed", "Thu", "Fri", "Sat"]

def monthNameStr : List String :=
  ["Jan", "Feb", "Mar", "Apr", "May", "Jun", "Jul", "Aug", "Sep", "Oct",
   "Nov", "Dec"]

/-- Go `t.Format httpDateFormat`: note the layout prints the *month
number* in the position an IMF-fixdate reserves for the day of month. -/
def formatHTTPDate (t : ParsedTime) : String :=
  dayNameStr.getD (weekdayOf t) "" ++ ", " ++ pad2 t.month ++ " " ++
    monthNameStr.getD (t.month - 1) "" ++ " " ++ pad4 t.year ++ " " ++
    pad2 t.hour ++ ":" ++ pad2 t.minute ++ ":" ++ pad2 t.second ++ " GMT"

/-! ### The `maxAge` regular expression and `strconv.Atoi`

`net.go` line 20: `var maxAge = regexp.MustCompile("(?:max-age|s-maxage)=(\d+)")`
(leftmost-first match; the capture group is the maximal digit run after
the `=`).  `setTTL` only looks at `FindStringSubmatch`'s capture group. -/

def digitsAfterKey (key s : List Char) : Option (List Char) :=
  match litChomp key s with
  | none => none
  | some rest =>
    let ds := rest.takeWhile isDigitChar
    if ds.isEmpty then none else some ds

def matchMaxAgeAt (s : List Char) : Option (List Char) :=
  match digitsAfterKey "max-age=".data s with
  | some ds => some ds
  | none => digitsAfterKey "s-maxage=".data s

def findMaxAgeAux : List Char → Option (List Char)
  | [] => none
  | c :: rest =>
    match matchMaxAgeAt (c :: rest) with
    | some ds => some ds
    | none => findMaxAgeAux rest

/-- Capture group of the first `maxAge` match in `s`, if any. -/
def findMaxAge (s : String) : Option String :=
  (findMaxAgeAux s.data).map String.mk

def digitsToNat (l : List Char) : Nat := l.foldl (fun a c => 10 * a + dVal c) 0

def maxInt64 : Int := 9223372036854775807

def minInt64 : Int := -9223372036854775808

/-- `strconv.Atoi` restricted to the unsigned digit strings produced by
the regex capture: fails exactly on 64-bit overflow. -/
def goAtoiDigits (s : String) : Option Int :=
  if s.data.isEmpty || !(s.data.all isDigitChar) then none
  else if (digitsToNat s.data : Int) ≤ maxInt64 then
    some (digitsToNat s.data : Int)
  else none

/-- Two's-complement wrap to `int64`, for `time.Duration(ttl) * time.Second`
(`%` on `Int` is Euclidean remainder, so the result is in
`[minInt64, maxInt64]`). -/
def wrap64 (n : Int) : Int :=
  (n - minInt64) % 18446744073709551616 + minInt64

/-- Go `Time.Sub` in nanoseconds: saturates at the `Duration` bounds. -/
def goTimeSub (a b : Int) : Int :=
  if a - b > maxInt64 then maxInt64
  else if a - b < minInt64 then minInt64
  else a - b

/-! ### The `Response` record

Declared in the repository outside `src/`; its shape is taken from the
fields `net.go` reads and writes (`StatusCode` and `Header` come from the
embedded `*http.Response`) and from the spec's data model.  `lastModified`
is kept as the broken-down time `time.Parse` produced, `ttl` as an instant
in nanoseconds since the epoch. -/

structure Response where
  statusCode : Int := 0
  headers : HeaderMap := []
  byteBody : List Nat := []
  ttl : Option Int := none
  lastModified : Option ParsedTime := none
  etag : String := ""
  revalidate : Bool := false
  err : Option String := none
deriving DecidableEq, Repr

/-! ### The freshness evaluator (`net.go` lines 288-345) -/

/-- `setTTL` (`net.go` 288-324).  `now` is the single `time.Now()`
observation at its entry.  `time.Duration(ttl) * time.Second` is int64
multiplication, hence the `wrap64`. -/
def setTTL (now : Int) (resp : Response) : Response × Bool :=
  match findMaxAge (hGet resp.headers "Cache-Control") with
  | some capture =>
    match goAtoiDigits capture with
    | none => (resp, false)
    | some ttl =>
      if ttl > 0 then
        ({ resp with ttl := some (now + wrap64 (ttl * 1000000000)) }, true)
      else (resp, false)
  | none =>
    match goParseHTTPDate (hGet resp.headers "Expires") with
    | none => (resp, false)
    | some expires =>
      if goTimeSub (toEpochNanos expires) now > 0 then
        ({ resp with ttl := some (toEpochNanos expires) }, true)
      else (resp, false)

/-- `setLastModified` (`net.go` 326-334). -/
def setLastModified (resp : Response) : Response × Bool :=
  match goParseHTTPDate (hGet resp.headers "Last-Modified") with
  | none => (resp, false)
  | some lastModified => ({ resp with lastModified := some lastModified }, true)

/-- `setETag` (`net.go` 336-345). -/
def setETag (resp : Response) : Response × Bool :=
  let r := { resp with etag := hGet resp.headers "ETag" }
  (r, r.etag != "")

/-- The Boolean `setTTL` reports, as a function of the headers alone. -/
def ttlSet (now : Int) (hdrs : HeaderMap) : Bool :=
  (setTTL now { headers := hdrs }).2

/-- The Boolean `setLastModified` reports, as a function of the headers. -/
def lastModifiedSet (hdrs : HeaderMap) : Bool :=
  (setLastModified { headers := hdrs }).2

/-- The Boolean `setETag` reports, as a function of the headers. -/
def etagSet (hdrs : HeaderMap) : Bool :=
  (setETag { headers := hdrs }).2

/-! ### The Resource Cache

`resourceCache` is declared in a repository file outside `src/`; only its
interface is visible here. -/

abbrev CacheStore := List (String × Response)

/-- Modelled from the spec: `resourceCache.get` (the Resource Cache's
`get(url)` contract; its implementation file is not under `src/`):
returns the stored entry if present; if present but its `ttl` has
elapsed, the entry is still returned but flagged for revalidation. -/
def cacheGet (now : Int) (store : CacheStore) (url : String) : Option Response :=
  match lookupA store url with
  | none => none
  | some r =>
    match r.ttl with
    | some t => if now > t then some { r with revalidate := true } else some r
    | none => some r

/-- Modelled from the spec: `resourceCache.setNX` (implementation file
not under `src/`): stores only if no entry exists for the URL
(first-writer-wins) and reports whether the store took effect. -/
def cacheSetNX (store : CacheStore) (url : String) (r : Response) :
    CacheStore × Bool :=
  match lookupA store url with
  | some _ => (store, false)
  | none => ((url, r) :: store, true)

/-! ### Builder configuration and verb lists -/

inductive ContentType
  | json
  | xml
deriving DecidableEq, Repr

def contentTypeStr : ContentType → String
  | ContentType.json => "json"
  | ContentType.xml => "xml"

/-- `RequestBuilder` is declared outside `src/`; these are the fields
`net.go` reads. -/
structure RequestBuilder where
  baseURL : String := ""
  disableCache : Bool := false
  contentType : ContentType := ContentType.json
  headers : Option HeaderMap := none
  proxy : String := ""
  maxIdleConnsPerHost : Int := 0
  timeout : Int := 0
  disableTimeout : Bool := false

/-- `match` (`net.go` 277-286); named `matchStr` because `match` is a
Lean keyword. -/
def matchStr (s : String) : List String → Bool
  | [] => false
  | v :: rest => if v == s then true else matchStr s rest

def readVerbs : List String := ["GET", "HEAD", "OPTIONS"]

def contentVerbs : List String := ["POST", "PUT", "PATCH"]

/-- `net/http.DefaultMaxIdleConnsPerHost`. -/
def defaultMaxIdleConnsPerHost : Int := 2

/-- Modelled from the spec: the package-level default timeout constant
(declared outside `src/`; its exact value decides no claim). -/
def DefaultTimeout : Int := 500000000

/-- `getMaxIdle` (`net.go` 191-198). -/
def getMaxIdle (rb : RequestBuilder) : Int :=
  if rb.maxIdleConnsPerHost > 0 then rb.maxIdleConnsPerHost
  else defaultMaxIdleConnsPerHost

/-- `getTimeout` (`net.go` 200-211). -/
def getTimeout (rb : RequestBuilder) : Int :=
  if rb.disableTimeout then 0
  else if rb.timeout > 0 then rb.timeout
  else DefaultTimeout

/-! ### `setParams` (`net.go` 234-275)

Split exactly at the source's seam: lines 237-264 (defaults, mockup
diagnostic, custom-header replacement, content negotiation) and lines
266-273 (the conditional-request block). -/

/-- Lines 237-264 of `setParams`: note the custom headers replace the
request's header map *before* `Accept` / `Content-Type` are set, so the
content-negotiation values are written on top of the custom map. -/
def setParamsBase (rb : RequestBuilder) (mockEnv : Bool) (method : String)
    (h0 : HeaderMap) (cacheURL : String) : HeaderMap :=
  let h1 := hSet h0 "Connection" "keep-alive"
  let h2 := hSet h1 "Cache-Control" "no-cache"
  let h3 := if mockEnv then hSet h2 "X-Original-URL" cacheURL else h2
  let h4 :=
    match rb.headers with
    | some custom => custom
    | none => h3
  let cType := "application/" ++ contentTypeStr rb.contentType
  let h5 := hSet h4 "Accept" cType
  if matchStr method contentVerbs then hSet h5 "Content-Type" cType else h5

/-- `setParams`, returning the final header map of the outgoing request. -/
def setParams (rb : RequestBuilder) (mockEnv : Bool) (method : String)
    (h0 : HeaderMap) (cacheResp : Option Response) (cacheURL : String) :
    HeaderMap :=
  let h := setParamsBase rb mockEnv method h0 cacheURL
  match cacheResp with
  | none => h
  | some cr =>
    if cr.revalidate then
      if cr.etag != "" then hSet h "If-None-Match" cr.etag
      else
        match cr.lastModified with
        | some lm => hSet h "If-Modified-Since" (formatHTTPDate lm)
        | none => h
    else h

/-! ### `doRequest` (`net.go` 23-108)

External effects are supplied by an oracle; the trace of `Event`s records
which pipeline stages ran. -/

inductive Event
  | cacheGetEv
  | marshalEv
  | connectEv
  | networkEv
  | freshnessEv
  | cacheSetEv
deriving DecidableEq, Repr

structure NetOracle where
  /-- the `time.Now()` observations of this request -/
  now : Int
  /-- outcome of `rb.marshalReqBody` (JSON/XML marshalling, external) -/
  marshalResult : Except String (List Nat)
  /-- the package-level `mockUpEnv` flag -/
  mockEnv : Bool
  /-- outcome of the URL rewrite inside `checkMockup` (`url.Parse` plus
  scheme/host substitution) when `mockUpEnv` is set -/
  mockRewrite : String → Except String String
  /-- outcome of `rb.connect` as seen by `doRequest` -/
  connectResult : Except String Unit
  /-- whether `http.NewRequest` succeeds -/
  newRequestOK : Bool
  /-- outcome of `client.Do` -/
  doResult : Except String Unit
  /-- `httpResp.StatusCode` when `client.Do` succeeded -/
  netStatus : Int
  /-- `httpResp.Header` when `client.Do` succeeded -/
  netHeaders : HeaderMap
  /-- outcome of `ioutil.ReadAll(httpResp.Body)` -/
  readResult : Except String (List Nat)

/-- `checkMockup` (`net.go` 110-128): the cache-keying URL is always the
incoming URL, in every branch. -/
def checkMockup (mockEnv : Bool) (mockRewrite : String → Except String String)
    (reqURL : String) : Except String (String × String) :=
  if mockEnv then
    match mockRewrite reqURL with
    | Except.error e => Except.error e
    | Except.ok u => Except.ok (u, reqURL)
  else Except.ok (reqURL, reqURL)

/-- Lines 39-107 of `doRequest`: everything after the cache check.
`cacheResp` is the entry the cache check retrieved (or `none`). -/
def doRequestNet (rb : RequestBuilder) (o : NetOracle) (verb reqURL : String)
    (cacheResp : Option Response) (cache : CacheStore) :
    Option Response × CacheStore × List Event :=
  match o.marshalResult with
  | Except.error e => (some { err := some e }, cache, [Event.marshalEv])
  | Except.ok _body =>
  match checkMockup o.mockEnv o.mockRewrite reqURL with
  | Except.error e => (some { err := some e }, cache, [Event.marshalEv])
  | Except.ok (_sendURL, cacheURL) =>
  match o.connectResult with
  | Except.error e =>
    (some { err := some e }, cache, [Event.marshalEv, Event.connectEv])
  | Except.ok _ =>
  if !o.newRequestOK then
    (some { err := some "http.NewRequest" }, cache,
      [Event.marshalEv, Event.connectEv])
  else
  match o.doResult with
  | Except.error e =>
    (some { err := some e }, cache,
      [Event.marshalEv, Event.connectEv, Event.networkEv])
  | Except.ok _ =>
  match o.readResult with
  | Except.error e =>
    (some { err := some e }, cache,
      [Event.marshalEv, Event.connectEv, Event.networkEv])
  | Except.ok respBody =>
  if o.netStatus == 304 then
    (cacheResp, cache, [Event.marshalEv, Event.connectEv, Event.networkEv])
  else
    let r0 : Response :=
      { statusCode := o.netStatus, headers := o.netHeaders,
        byteBody := respBody }
    let p1 := setTTL o.now r0
    let p2 := setLastModified p1.1
    let p3 := setETag p2.1
    let ttl := p1.2
    let lastModified := p2.2
    let etag := p3.2
    let r4 :=
      if !ttl && (lastModified || etag) then { p3.1 with revalidate := true }
      else p3.1
    if (!rb.disableCache && matchStr verb readVerbs) &&
        (ttl || lastModified || etag) then
      (some r4, (cacheSetNX cache cacheURL r4).1,
        [Event.marshalEv, Event.connectEv, Event.networkEv,
         Event.freshnessEv, Event.cacheSetEv])
    else
      (some r4, cache,
        [Event.marshalEv, Event.connectEv, Event.networkEv,
         Event.freshnessEv])

/-- `doRequest`.  The result is an `Option Response` because the 304
branch returns the `cacheResp` pointer, which is `nil` when no cached
entry was retrieved. -/
def doRequest (rb : RequestBuilder) (o : NetOracle) (verb urlSuffix : String)
    (cache : CacheStore) : Option Response × CacheStore × List Event :=
  let reqURL := rb.baseURL ++ urlSuffix
  if !rb.disableCache && matchStr verb readVerbs then
    match cacheGet o.now cache reqURL with
    | some cacheResp =>
      if !cacheResp.revalidate then (some cacheResp, cache, [Event.cacheGetEv])
      else
        let r := doRequestNet rb o verb reqURL (some cacheResp) cache
        (r.1, r.2.1, Event.cacheGetEv :: r.2.2)
    | none =>
      let r := doRequestNet rb o verb reqURL none cache
      (r.1, r.2.1, Event.cacheGetEv :: r.2.2)
  else
    doRequestNet rb o verb reqURL none cache

/-! ### `connect` (`net.go` 144-189)

Transports and clients are heap objects referenced by index, so that
in-place mutation (`tr.Proxy = ...`) and object identity are visible.
The builder's lazily initialized client cache (`getClientCache`) is
represented by the `clientCache` component of the state. -/

structure GoTransport where
  maxIdleConnsPerHost : Int
  proxy : Option String
deriving DecidableEq, Repr

structure GoClient where
  transport : Nat
  timeout : Int
deriving DecidableEq, Repr

structure ConnState where
  transports : List GoTransport := []
  transportCache : List (String × Nat) := []
  clients : List GoClient := []
  clientCache : List (String × Nat) := []
deriving DecidableEq, Repr

/-- `syncMap.setNX`, modelled from the spec: insert-if-absent,
reporting whether the insert took effect (`cache.go` is not in `src/`). -/
def insertNX {α : Type} (m : List (String × α)) (k : String) (v : α) :
    List (String × α) × Bool :=
  match lookupA m k with
  | some _ => (m, false)
  | none => ((k, v) :: m, true)

structure ConnOracle where
  /-- `url.Parse` on the target URL: scheme and host on success -/
  parseURL : String → Option (String × String)
  /-- whether `url.Parse(rb.Proxy)` succeeds -/
  proxyParses : Bool
  /-- a transport a concurrent caller publishes between this call's
  transport-cache miss and its `setNX` -/
  trInterfere : Option GoTransport
  /-- a client a concurrent caller publishes between this call's
  client-cache miss and its `setNX` -/
  clInterfere : Option GoClient

/-- `connect`: returns the index of the `http.Client` handed to the
caller, together with the updated shared state. -/
def connect (rb : RequestBuilder) (o : ConnOracle) (urlStr : String)
    (st : ConnState) : Except String Nat × ConnState :=
  match o.parseURL urlStr with
  | none => (Except.error "url.Parse", st)
  | some (scheme, host) =>
    let schemeHost := scheme ++ "://" ++ host
    match lookupA st.clientCache schemeHost with
    | some cid => (Except.ok cid, st)
    | none =>
      let trStep : Nat × ConnState :=
        match lookupA st.transportCache schemeHost with
        | some tid => (tid, st)
        | none =>
          let tr : GoTransport :=
            { maxIdleConnsPerHost := getMaxIdle rb, proxy := none }
          let tid := st.transports.length
          let st1 := { st with transports := st.transports ++ [tr] }
          match o.trInterfere with
          | some other =>
            let oid := st1.transports.length
            let st2 :=
              { st1 with
                transports := st1.transports ++ [other],
                transportCache :=
                  (insertNX st1.transportCache schemeHost oid).1 }
            match lookupA st2.transportCache schemeHost with
            | some tid2 => (tid2, st2)
            | none => (tid, st2)
          | none =>
            (tid,
              { st1 with
                transportCache :=
                  (insertNX st1.transportCache schemeHost tid).1 })
      let tid := trStep.1
      let st3 := trStep.2
      let client : GoClient := { transport := tid, timeout := getTimeout rb }
      let cid := st3.clients.length
      let st4 := { st3 with clients := st3.clients ++ [client] }
      let st5 :=
        if rb.proxy != "" && o.proxyParses then
          { st4 with
            transports := st4.transports.set tid
              { (st4.transports.getD tid
                  { maxIdleConnsPerHost := 0, proxy := none }) with
                proxy := some rb.proxy } }
        else st4
      let st6 :=
        match o.clInterfere with
        | some other =>
          let oid := st5.clients.length
          { st5 with
            clients := st5.clients ++ [other],
            clientCache := (insertNX st5.clientCache schemeHost oid).1 }
        | none => st5
      let st7 :=
        { st6 with clientCache := (insertNX st6.clientCache schemeHost cid).1 }
      (Except.ok cid, st7)

/-! ### Helper lemmas -/

theorem hGet_hSet_same (h : HeaderMap) (k v : String) :
    hGet (hSet h k v) k = v := by
  simp [hGet, hSet]

theorem find?_filter_ne (h : HeaderMap) (k k' : String) (hne : k' ≠ k) :
    (h.filter (fun p => p.1 != k)).find? (fun p => p.1 == k')
      = h.find? (fun p => p.1 == k') := by
  induction h with
  | nil => rfl
  | cons a t ih =>
    by_cases hb : a.1 = k
    · have h1 : (a.1 != k) = false := by simp [hb]
      have h2 : (a.1 == k') = false := by
        rw [beq_eq_false_iff_ne, hb]
        exact fun he => hne he.symm
      simp [List.filter_cons, List.find?_cons, h1, h2, ih]
    · have h1 : (a.1 != k) = true := by simp [hb]
      by_cases ha : a.1 = k'
      · have h2 : (a.1 == k') = true := by simp [ha]
        simp [List.filter_cons, List.find?_cons, h1, h2]
      · have h2 : (a.1 == k') = false := by simp [ha]
        simp [List.filter_cons, List.find?_cons, h1, h2, ih]

theorem hGet_hSet_other (h : HeaderMap) (k v k' : String) (hne : k' ≠ k) :
    hGet (hSet h k v) k' = hGet h k' := by
  have hkk : (k == k') = false := by
    simp [beq_iff_eq]; exact fun he => hne he.symm
  simp [hGet, hSet, List.find?_cons, hkk, find?_filter_ne h k k' hne]

theorem setTTL_fst_headers (now : Int) (r : Response) :
    (setTTL now r).1.headers = r.headers := by
  unfold setTTL
  split
  · split
    · rfl
    · split <;> rfl
  · split
    · rfl
    · split <;> rfl

theorem setTTL_fst_revalidate (now : Int) (r : Response) :
    (setTTL now r).1.revalidate = r.revalidate := by
  unfold setTTL
  split
  · split
    · rfl
    · split <;> rfl
  · split
    · rfl
    · split <;> rfl

theorem setTTL_snd (now : Int) (r : Response) :
    (setTTL now r).2 = ttlSet now r.headers := by
  unfold setTTL ttlSet setTTL
  simp only []
  split
  · split
    · rfl
    · split <;> rfl
  · split
    · rfl
    · split <;> rfl

theorem setLastModified_fst_headers (r : Response) :
    (setLastModified r).1.headers = r.headers := by
  unfold setLastModified
  split <;> rfl

theorem setLastModified_fst_revalidate (r : Response) :
    (setLastModified r).1.revalidate = r.revalidate := by
  unfold setLastModified
  split <;> rfl

theorem setLastModified_snd (r : Response) :
    (setLastModified r).2 = lastModifiedSet r.headers := by
  unfold setLastModified lastModifiedSet setLastModified
  simp only []
  split <;> rfl

theorem setETag_fst_headers (r : Response) :
    (setETag r).1.headers = r.headers := rfl

theorem setETag_fst_revalidate (r : Response) :
    (setETag r).1.revalidate = r.revalidate := rfl

theorem setETag_snd (r : Response) :
    (setETag r).2 = etagSet r.headers := rfl

theorem wrap64_eq_self (x : Int) (h1 : minInt64 ≤ x) (h2 : x ≤ maxInt64) :
    wrap64 x = x := by
  unfold wrap64 minInt64 at *
  unfold maxInt64 at h2
  rw [Int.emod_eq_of_lt (by omega) (by omega)]
  omega

/-! ### The claims -/

/-- C1: the spec says `Expires` / `Last-Modified` are parsed with the RFC
7231 IMF-fixdate layout (`"Mon, 02 Jan 2006 15:04:05 GMT"`), so parsing a
well-formed IMF-fixdate succeeds.  The source's layout string uses `01`
(Go's numeric-month token) where the day of month (`02`) belongs, so on
the spec's own example date the parse fails (day 15 is read as an
out-of-range month): `setLastModified` reports false and a future
well-formed `Expires` yields no TTL.  Even a fixdate whose day is ≤ 12
parses to the wrong instant (the day is forced to 1).  The code's own
comment cites the RFC 2616 date format, so this is a code bug. -/
theorem C1_httpDate_layout_code_bug :
    goParseHTTPDate "Tue, 15 Nov 1994 08:12:31 GMT" = none ∧
    (setLastModified
        { headers := [("Last-Modified", "Tue, 15 Nov 1994 08:12:31 GMT")] }).2
      = false ∧
    (setTTL 0
        { headers := [("Expires", "Tue, 15 Nov 2994 08:12:31 GMT")] }).2
      = false ∧
    goParseHTTPDate "Sat, 05 Nov 1994 08:12:31 GMT"
      = some { year := 1994, month := 11, day := 1, hour := 8, minute := 12,
               second := 31 } := by
  refine ⟨rfl, rfl, rfl, rfl⟩

/-- C2 counterexample: the claim says a positive `(max-age|s-maxage)`
match sets `ttl` to now plus that many seconds.  For
`max-age=10000000000` (which `strconv.Atoi` accepts) the conversion
`time.Duration(ttl) * time.Second` overflows int64, so the stored ttl is
now *minus* about 8.4e9 seconds, not now plus 1e10 seconds. -/
theorem C2_counterexample :
    (setTTL 0 { headers := [("Cache-Control", "max-age=10000000000")] }).2
      = true ∧
    (setTTL 0 { headers := [("Cache-Control", "max-age=10000000000")] }).1.ttl
      = some (-8446744073709551616) ∧
    (-8446744073709551616 : Int) ≠ 0 + 10000000000 * 1000000000 := by
  refine ⟨rfl, rfl, by decide⟩

/-- C2 (amended): when the Cache-Control header has a
`(max-age|s-maxage)=digits` match, `setTTL` decides from that match alone
— `Expires` is never consulted: a positive parsed value stores
`ttl = now + wrap64(value * 1e9)` nanoseconds (which is now + value
seconds whenever value ≤ 9223372036, but wraps around for larger values)
and reports true; a zero or overflowing value reports false.  Only when
no match exists at all is `Expires` parsed, and a parse that lies in the
future sets `ttl` to that instant. -/
theorem C2_setTTL_amended (now : Int) (r : Response) (capture : String)
    (hm : findMaxAge (hGet r.headers "Cache-Control") = some capture) :
    (setTTL now r =
      match goAtoiDigits capture with
      | some n =>
        if n > 0 then
          ({ r with ttl := some (now + wrap64 (n * 1000000000)) }, true)
        else (r, false)
      | none => (r, false)) ∧
    (∀ n : Int, 0 ≤ n → n ≤ 9223372036 →
      wrap64 (n * 1000000000) = n * 1000000000) ∧
    (∀ r2 : Response,
      findMaxAge (hGet r2.headers "Cache-Control") = none →
      setTTL now r2 =
        match goParseHTTPDate (hGet r2.headers "Expires") with
        | some expires =>
          if goTimeSub (toEpochNanos expires) now > 0 then
            ({ r2 with ttl := some (toEpochNanos expires) }, true)
          else (r2, false)
        | none => (r2, false)) := by
  refine ⟨?_, ?_, ?_⟩
  · unfold setTTL
    rw [hm]
    simp only []
    cases ha : goAtoiDigits capture
    · simp [ha]
    · simp [ha]
  · intro n h1 h2
    apply wrap64_eq_self
    · unfold minInt64
      nlinarith
    · unfold maxInt64
      nlinarith
  · intro r2 hm2
    unfold setTTL
    rw [hm2]
    simp only []
    cases hp : goParseHTTPDate (hGet r2.headers "Expires")
    · simp [hp]
    · simp [hp]

/-- Witness for C2_setTTL_amended at `Cache-Control: max-age=60` with a
garbage `Expires` present, and at a header with no match but a future
`Expires`. -/
theorem C2_setTTL_amended_witness :
    setTTL 5 { headers := [("Cache-Control", "public, max-age=60"),
                           ("Expires", "garbage")] }
      = ({ headers := [("Cache-Control", "public, max-age=60"),
                       ("Expires", "garbage")],
           ttl := some 60000000005 }, true) ∧
    setTTL 5 { headers := [("Cache-Control", "no-store"),
                           ("Expires", "Sat, 05 Nov 2994 08:12:31 GMT")] }
      = ({ headers := [("Cache-Control", "no-store"),
                       ("Expires", "Sat, 05 Nov 2994 08:12:31 GMT")],
           ttl := some 32340672751000000000 }, true) := by
  have h := C2_setTTL_amended 5
    { headers := [("Cache-Control", "public, max-age=60"),
                  ("Expires", "garbage")] } "60" rfl
  constructor
  · rw [h.1]
    rfl
  · rw [h.2.2 { headers := [("Cache-Control", "no-store"),
                ("Expires", "Sat, 05 Nov 2994 08:12:31 GMT")] } rfl]
    rfl

theorem doRequestNet_revalidate
    (rb : RequestBuilder) (verb reqURL : String) (cacheResp : Option Response)
    (cache : CacheStore) (now : Int) (body respBody : List Nat)
    (mockEnv : Bool) (mockFn : String → String) (status : Int)
    (hdrs : HeaderMap) (hstatus : status ≠ 304) :
    ((doRequestNet rb
        { now := now, marshalResult := Except.ok body, mockEnv := mockEnv,
          mockRewrite := fun u => Except.ok (mockFn u),
          connectResult := Except.ok (), newRequestOK := true,
          doResult := Except.ok (), netStatus := status, netHeaders := hdrs,
          readResult := Except.ok respBody }
        verb reqURL cacheResp cache).1).map (fun r => r.revalidate)
      = some (!ttlSet now hdrs && (lastModifiedSet hdrs || etagSet hdrs)) := by
  have h304 : (status == 304) = false := beq_eq_false_iff_ne.mpr hstatus
  unfold doRequestNet checkMockup
  cases mockEnv <;>
    simp only [if_true, if_false, Bool.not_true, h304, Bool.false_eq_true,
      ite_true, ite_false, setTTL_snd, setLastModified_snd, setETag_snd,
      setTTL_fst_headers, setLastModified_fst_headers] <;>
    split <;>
    simp only [Option.map_some] <;>
    split <;>
    simp_all [setETag_fst_revalidate, setLastModified_fst_revalidate,
      setTTL_fst_revalidate, setTTL_snd, setLastModified_snd, setETag_snd,
      setTTL_fst_headers, setLastModified_fst_headers]

/-- C3: for every non-304 network response processed by `doRequest` (the
oracle delivers status `status ≠ 304` with headers `hdrs`, and any cache
entry retrieved beforehand required revalidation, else no network
response is processed), the returned (and, when stored, cached) Response
has `revalidate = !ttlSet && (lastModifiedSet || etagSet)`: a Response
with a derived ttl never has `revalidate`, and one with no ttl but a
non-empty ETag or a (code-)parseable Last-Modified always does. -/
theorem C3_doRequest_revalidate_invariant
    (rb : RequestBuilder) (verb urlSuffix : String) (cache : CacheStore)
    (now : Int) (body respBody : List Nat) (mockEnv : Bool)
    (mockFn : String → String) (status : Int) (hdrs : HeaderMap)
    (hstatus : status ≠ 304)
    (hpath : ∀ c, cacheGet now cache (rb.baseURL ++ urlSuffix) = some c →
      c.revalidate = true) :
    ((doRequest rb
        { now := now, marshalResult := Except.ok body, mockEnv := mockEnv,
          mockRewrite := fun u => Except.ok (mockFn u),
          connectResult := Except.ok (), newRequestOK := true,
          doResult := Except.ok (), netStatus := status, netHeaders := hdrs,
          readResult := Except.ok respBody }
        verb urlSuffix cache).1).map (fun r => r.revalidate)
      = some (!ttlSet now hdrs && (lastModifiedSet hdrs || etagSet hdrs)) := by
  unfold doRequest
  split
  · cases hc : cacheGet now cache (rb.baseURL ++ urlSuffix) with
    | none =>
      simp only [hc]
      exact doRequestNet_revalidate rb verb (rb.baseURL ++ urlSuffix) none
        cache now body respBody mockEnv mockFn status hdrs hstatus
    | some c =>
      simp only [hc, hpath c hc, Bool.not_true, Bool.false_eq_true, if_false,
        ite_false]
      exact doRequestNet_revalidate rb verb (rb.baseURL ++ urlSuffix) (some c)
        cache now body respBody mockEnv mockFn status hdrs hstatus
  · exact doRequestNet_revalidate rb verb (rb.baseURL ++ urlSuffix) none
      cache now body respBody mockEnv mockFn status hdrs hstatus

/-- Witness for C3: a 200 response carrying only an ETag yields
`revalidate = true`, and one carrying `max-age=60` yields
`revalidate = false`, through `doRequest` on an empty cache. -/
theorem C3_doRequest_revalidate_invariant_witness :
    ((doRequest {}
        { now := 0, marshalResult := Except.ok [], mockEnv := false,
          mockRewrite := fun u => Except.ok u,
          connectResult := Except.ok (), newRequestOK := true,
          doResult := Except.ok (), netStatus := 200,
          netHeaders := [("ETag", "x")],
          readResult := Except.ok [] }
        "GET" "/r" []).1).map (fun r => r.revalidate) = some true ∧
    ((doRequest {}
        { now := 0, marshalResult := Except.ok [], mockEnv := false,
          mockRewrite := fun u => Except.ok u,
          connectResult := Except.ok (), newRequestOK := true,
          doResult := Except.ok (), netStatus := 200,
          netHeaders := [("Cache-Control", "max-age=60"), ("ETag", "x")],
          readResult := Except.ok [] }
        "GET" "/r" []).1).map (fun r => r.revalidate) = some false := by
  constructor
  · have h := C3_doRequest_revalidate_invariant {} "GET" "/r" [] 0 [] [] false
      (fun u => u) 200 [("ETag", "x")] (by decide) (fun c hc => nomatch hc)
    exact h.trans (by rfl)
  · have h := C3_doRequest_revalidate_invariant {} "GET" "/r" [] 0 [] [] false
      (fun u => u) 200 [("Cache-Control", "max-age=60"), ("ETag", "x")]
      (by decide) (fun c hc => nomatch hc)
    exact h.trans (by rfl)

/-- C4: when the retrieved cache entry has `revalidate = true`, `setParams`
attaches `If-None-Match` with the cached ETag when that is non-empty
(leaving `If-Modified-Since` as in the base header map, i.e. unset),
otherwise `If-Modified-Since` with the cached last-modified instant when
one is known; ETag takes precedence, the two are never both set, and when
no revalidation-eligible entry exists (`none`, or `revalidate = false`)
`setParams` adds neither, returning exactly the base header map. -/
theorem C4_setParams_conditional
    (rb : RequestBuilder) (mockEnv : Bool) (method : String) (h0 : HeaderMap)
    (cacheURL : String) (cr : Response)
    (hrev : cr.revalidate = true)
    (hb1 : hGet (setParamsBase rb mockEnv method h0 cacheURL) "If-None-Match"
      = "")
    (hb2 : hGet (setParamsBase rb mockEnv method h0 cacheURL)
      "If-Modified-Since" = "")
    (rb2 : RequestBuilder) (mE2 : Bool) (m2 : String) (h02 : HeaderMap)
    (cu2 : String) (cr2 : Option Response)
    (hno : ∀ c, cr2 = some c → c.revalidate = false) :
    (cr.etag ≠ "" →
      hGet (setParams rb mockEnv method h0 (some cr) cacheURL) "If-None-Match"
          = cr.etag ∧
      hGet (setParams rb mockEnv method h0 (some cr) cacheURL)
          "If-Modified-Since" = "") ∧
    (∀ lm, cr.etag = "" → cr.lastModified = some lm →
      hGet (setParams rb mockEnv method h0 (some cr) cacheURL)
          "If-Modified-Since" = formatHTTPDate lm ∧
      hGet (setParams rb mockEnv method h0 (some cr) cacheURL) "If-None-Match"
          = "") ∧
    setParams rb2 mE2 m2 h02 cr2 cu2 = setParamsBase rb2 mE2 m2 h02 cu2 := by
  refine ⟨?_, ?_, ?_⟩
  · intro he
    have hbne : (cr.etag != "") = true := bne_iff_ne.mpr he
    unfold setParams
    simp only [hrev, hbne, if_true, ite_true]
    exact ⟨hGet_hSet_same _ _ _,
      (hGet_hSet_other _ _ _ _ (by decide)).trans hb2⟩
  · intro lm he hlm
    have hbne : (cr.etag != "") = false := by simp [he]
    unfold setParams
    simp only [hrev, hbne, hlm, if_true, ite_true, Bool.false_eq_true,
      if_false, ite_false]
    exact ⟨hGet_hSet_same _ _ _,
      (hGet_hSet_other _ _ _ _ (by decide)).trans hb1⟩
  · cases cr2 with
    | none => rfl
    | some c =>
      unfold setParams
      simp [hno c rfl]

/-- Witness for C4: an entry with both an ETag and a last-modified instant
gets exactly `If-None-Match`, and with no entry `setParams` returns the
base header map. -/
theorem C4_setParams_conditional_witness :
    (hGet (setParams {} false "GET" []
        (some { etag := "abc", revalidate := true,
                lastModified :=
                  some { year := 1994, month := 11, day := 1, hour := 8, minute := 12, second := 31 } })
        "u") "If-None-Match" = "abc" ∧
     hGet (setParams {} false "GET" []
        (some { etag := "abc", revalidate := true,
                lastModified :=
                  some { year := 1994, month := 11, day := 1, hour := 8, minute := 12, second := 31 } })
        "u") "If-Modified-Since" = "") ∧
    setParams {} false "GET" [] none "u" = setParamsBase {} false "GET" [] "u"
      := by
  have h := C4_setParams_conditional {} false "GET" [] "u"
    { etag := "abc", revalidate := true,
      lastModified :=
        some { year := 1994, month := 11, day := 1, hour := 8, minute := 12, second := 31 } }
    rfl rfl rfl {} false "GET" [] "u" none (fun c hc => nomatch hc)
  exact ⟨h.1 (by decide), h.2.2⟩

theorem doRequestNet_no_cacheGet (rb : RequestBuilder) (o : NetOracle)
    (verb reqURL : String) (cr : Option Response) (cache : CacheStore)
    (hgate : (!rb.disableCache && matchStr verb readVerbs) = false) :
    Event.cacheGetEv ∉ (doRequestNet rb o verb reqURL cr cache).2.2 ∧
    (doRequestNet rb o verb reqURL cr cache).2.1 = cache := by
  obtain ⟨now, mar, mE, mR, cRes, nOK, dR, nS, nH, rR⟩ := o
  unfold doRequestNet checkMockup
  cases mar <;> cases mE <;> try cases hmr : mR reqURL
  all_goals cases cRes <;> cases nOK <;> cases dR <;> cases rR
  all_goals simp only [hgate, Bool.false_and, Bool.false_eq_true, if_false,
    ite_false]
  all_goals repeat split
  all_goals try simp_all
  all_goals by_cases hs : nS = (304 : Int) <;> simp_all [hs]

/-- C5: with caching enabled and a read verb, a cache entry whose
`revalidate` flag is false is returned by `doRequest` immediately: no
marshalling, connection or network event occurs and the cache is left
untouched; with a non-read verb or caching disabled, the cache is never
consulted (no cache-get event, store unchanged). -/
theorem C5_doRequest_cache_fastpath
    (rb : RequestBuilder) (o : NetOracle) (verb urlSuffix : String)
    (cache : CacheStore) (c : Response)
    (hdc : rb.disableCache = false) (hread : matchStr verb readVerbs = true)
    (hget : cacheGet o.now cache (rb.baseURL ++ urlSuffix) = some c)
    (hrev : c.revalidate = false)
    (rb2 : RequestBuilder) (o2 : NetOracle) (verb2 url2 : String)
    (cache2 : CacheStore)
    (hgate2 : rb2.disableCache = true ∨ matchStr verb2 readVerbs = false) :
    doRequest rb o verb urlSuffix cache = (some c, cache, [Event.cacheGetEv]) ∧
    (Event.cacheGetEv ∉ (doRequest rb2 o2 verb2 url2 cache2).2.2 ∧
      (doRequest rb2 o2 verb2 url2 cache2).2.1 = cache2) := by
  constructor
  · unfold doRequest
    simp [hdc, hread, hget, hrev]
  · have hg : (!rb2.disableCache && matchStr verb2 readVerbs) = false := by
      rcases hgate2 with h | h <;> simp [h]
    unfold doRequest
    rw [hg]
    simp only [Bool.false_eq_true, if_false, ite_false]
    exact doRequestNet_no_cacheGet rb2 o2 verb2 (rb2.baseURL ++ url2) none
      cache2 hg

/-- Witness for C5: a fresh cached entry is served directly on GET, and a
POST (or any non-read verb) never consults the cache. -/
theorem C5_doRequest_cache_fastpath_witness :
    doRequest {}
      { now := 0, marshalResult := Except.ok [], mockEnv := false,
        mockRewrite := fun u => Except.ok u, connectResult := Except.ok (),
        newRequestOK := true, doResult := Except.ok (), netStatus := 200,
        netHeaders := [], readResult := Except.ok [] }
      "GET" "/r" [("/r", { statusCode := 200, byteBody := [9] })]
      = (some { statusCode := 200, byteBody := [9] },
         [("/r", { statusCode := 200, byteBody := [9] })],
         [Event.cacheGetEv]) ∧
    (Event.cacheGetEv ∉ (doRequest {}
      { now := 0, marshalResult := Except.ok [], mockEnv := false,
        mockRewrite := fun u => Except.ok u, connectResult := Except.ok (),
        newRequestOK := true, doResult := Except.ok (), netStatus := 200,
        netHeaders := [], readResult := Except.ok [] }
      "POST" "/r" [("/r", { statusCode := 200, byteBody := [9] })]).2.2 ∧
     (doRequest {}
      { now := 0, marshalResult := Except.ok [], mockEnv := false,
        mockRewrite := fun u => Except.ok u, connectResult := Except.ok (),
        newRequestOK := true, doResult := Except.ok (), netStatus := 200,
        netHeaders := [], readResult := Except.ok [] }
      "POST" "/r" [("/r", { statusCode := 200, byteBody := [9] })]).2.1
        = [("/r", { statusCode := 200, byteBody := [9] })]) := by
  exact C5_doRequest_cache_fastpath {} _ "GET" "/r"
    [("/r", { statusCode := 200, byteBody := [9] })]
    { statusCode := 200, byteBody := [9] } rfl (by decide) rfl rfl
    {} _ "POST" "/r" [("/r", { statusCode := 200, byteBody := [9] })]
    (Or.inr (by decide))

/-- C6: when the network answers 304 after a revalidation (a cached entry
with `revalidate = true` was retrieved), `doRequest` returns exactly that
cached entry — whatever body the 304 carried is discarded — the cache is
not repopulated, and no freshness evaluation runs (the trace ends at the
network event). -/
theorem C6_doRequest_304_returns_cached
    (rb : RequestBuilder) (verb urlSuffix : String) (cache : CacheStore)
    (c : Response) (now : Int) (body respBody : List Nat) (mockEnv : Bool)
    (mockFn : String → String) (hdrs : HeaderMap)
    (hdc : rb.disableCache = false) (hread : matchStr verb readVerbs = true)
    (hget : cacheGet now cache (rb.baseURL ++ urlSuffix) = some c)
    (hrev : c.revalidate = true) :
    doRequest rb
      { now := now, marshalResult := Except.ok body, mockEnv := mockEnv,
        mockRewrite := fun u => Except.ok (mockFn u),
        connectResult := Except.ok (), newRequestOK := true,
        doResult := Except.ok (), netStatus := 304, netHeaders := hdrs,
        readResult := Except.ok respBody }
      verb urlSuffix cache
      = (some c, cache,
         [Event.cacheGetEv, Event.marshalEv, Event.connectEv,
          Event.networkEv]) := by
  unfold doRequest
  simp only [hdc, hread, hget, hrev, Bool.not_true, Bool.not_false,
    Bool.true_and, if_true, ite_true, Bool.false_eq_true, if_false,
    ite_false]
  unfold doRequestNet checkMockup
  cases mockEnv <;> simp

/-- Witness for C6: a stale ETag-bearing cached entry is returned on a
304, body and cache untouched. -/
theorem C6_doRequest_304_returns_cached_witness :
    doRequest {}
      { now := 0, marshalResult := Except.ok [], mockEnv := false,
        mockRewrite := fun u => Except.ok u, connectResult := Except.ok (),
        newRequestOK := true, doResult := Except.ok (), netStatus := 304,
        netHeaders := [], readResult := Except.ok [7, 7] }
      "GET" "/r"
      [("/r", { statusCode := 200, byteBody := [9], etag := "abc",
                revalidate := true })]
      = (some { statusCode := 200, byteBody := [9], etag := "abc",
                revalidate := true },
         [("/r", { statusCode := 200, byteBody := [9], etag := "abc",
                   revalidate := true })],
         [Event.cacheGetEv, Event.marshalEv, Event.connectEv,
          Event.networkEv]) := by
  exact C6_doRequest_304_returns_cached {} "GET" "/r"
    [("/r", { statusCode := 200, byteBody := [9], etag := "abc",
              revalidate := true })]
    { statusCode := 200, byteBody := [9], etag := "abc", revalidate := true }
    0 [] [7, 7] false (fun u => u) [] rfl (by decide) rfl rfl

/-- C10: a 304 network response with no previously retrieved cache entry
(caching disabled, non-read verb, or a cache miss) makes `doRequest`
return the nil `Response` pointer (`none`), not a 304-carrying Response
and not an error. -/
theorem C10_doRequest_304_no_cache_nil
    (rb : RequestBuilder) (verb urlSuffix : String) (cache : CacheStore)
    (now : Int) (body respBody : List Nat) (mockEnv : Bool)
    (mockFn : String → String) (hdrs : HeaderMap)
    (hmiss : (if !rb.disableCache && matchStr verb readVerbs then
        cacheGet now cache (rb.baseURL ++ urlSuffix) else none) = none) :
    (doRequest rb
      { now := now, marshalResult := Except.ok body, mockEnv := mockEnv,
        mockRewrite := fun u => Except.ok (mockFn u),
        connectResult := Except.ok (), newRequestOK := true,
        doResult := Except.ok (), netStatus := 304, netHeaders := hdrs,
        readResult := Except.ok respBody }
      verb urlSuffix cache).1 = none := by
  unfold doRequest
  cases hg : (!rb.disableCache && matchStr verb readVerbs) with
  | false =>
    simp only [hg, Bool.false_eq_true, if_false, ite_false]
    unfold doRequestNet checkMockup
    cases mockEnv <;> simp
  | true =>
    rw [hg] at hmiss
    simp only [if_true, ite_true] at hmiss
    simp only [hg, if_true, ite_true, hmiss]
    unfold doRequestNet checkMockup
    cases mockEnv <;> simp

/-- Witness for C10: a POST answered with 304 yields a `none` result. -/
theorem C10_doRequest_304_no_cache_nil_witness :
    (doRequest {}
      { now := 0, marshalResult := Except.ok [], mockEnv := false,
        mockRewrite := fun u => Except.ok u, connectResult := Except.ok (),
        newRequestOK := true, doResult := Except.ok (), netStatus := 304,
        netHeaders := [], readResult := Except.ok [] }
      "POST" "/r" [("/r", { statusCode := 200 })]).1 = none := by
  exact C10_doRequest_304_no_cache_nil {} "POST" "/r"
    [("/r", { statusCode := 200 })] 0 [] [] false (fun u => u) []
    (by decide)

/-- C7 counterexample: the claim says custom headers are overlaid *after*
the content-negotiation headers, so a custom `Accept` wins.  In the code
the replacement `req.Header = rb.Headers` happens first and `Accept` is
set afterwards, so a custom `Accept: text/html` is overwritten with
`application/json`. -/
theorem C7_counterexample :
    hGet (setParams { headers := some [("Accept", "text/html")] } false "GET"
        [] none "u") "Accept" = "application/json" ∧
    "application/json" ≠ "text/html" := by
  exact ⟨rfl, by decide⟩

/-- C7 (amended): with non-nil custom headers, `setParams` first sets the
default headers, then replaces the whole header map by the custom
headers, and then writes `Accept` (and `Content-Type` for POST/PUT/PATCH)
on top of them — so every custom header survives *except* `Accept` and
(for body verbs) `Content-Type`, which carry the configured content type,
and the default `Connection`/`Cache-Control` values are dropped unless
the custom map repeats them. -/
theorem C7_setParams_custom_amended (rb : RequestBuilder) (custom : HeaderMap)
    (mockEnv : Bool) (method : String) (h0 : HeaderMap) (curl : String)
    (hc : rb.headers = some custom) :
    setParams rb mockEnv method h0 none curl
      = (let ct := "application/" ++ contentTypeStr rb.contentType
         let h5 := hSet custom "Accept" ct
         if matchStr method contentVerbs then hSet h5 "Content-Type" ct
         else h5) := by
  unfold setParams setParamsBase
  rw [hc]

/-- Witness for C7 (amended): a custom map with its own Accept and an
extra header, on a POST with XML content type. -/
theorem C7_setParams_custom_amended_witness :
    setParams { headers := some [("Accept", "text/html"), ("X-Foo", "1")],
                contentType := ContentType.xml }
        true "POST" [("Z", "z")] none "u"
      = [("Content-Type", "application/xml"), ("Accept", "application/xml"),
         ("X-Foo", "1")] := by
  have h := C7_setParams_custom_amended
    { headers := some [("Accept", "text/html"), ("X-Foo", "1")],
      contentType := ContentType.xml }
    [("Accept", "text/html"), ("X-Foo", "1")] true "POST" [("Z", "z")] "u" rfl
  exact h.trans rfl

/-- C8 counterexample: the claim says a transport already in the global
cache keeps its `Proxy` field.  With an empty client cache and a cached
proxy-free transport for `http://h`, a `connect` from a builder with a
proxy overwrites that cached transport's `Proxy` in place. -/
theorem C8_counterexample :
    ((connect { proxy := "http://p" }
        { parseURL := fun _ => some ("http", "h"), proxyParses := true,
          trInterfere := none, clInterfere := none }
        "http://h/x"
        { transports := [{ maxIdleConnsPerHost := 5, proxy := none }],
          transportCache := [("http://h", 0)], clients := [],
          clientCache := [] }).2.transports
      = [{ maxIdleConnsPerHost := 5, proxy := some "http://p" }]) ∧
    (some "http://p" : Option String) ≠ none := by
  exact ⟨rfl, by decide⟩

/-- C8 (amended): a client-cache hit returns the cached client and leaves
the whole connection state (transports included) untouched; but on a
client-cache miss with the transport already in the global cache, the
builder's proxy is written into that shared cached transport's `Proxy`
field in place. -/
theorem C8_connect_proxy_amended
    (rb : RequestBuilder) (o : ConnOracle) (urlStr scheme host : String)
    (st : ConnState) (tid : Nat)
    (hp : o.parseURL urlStr = some (scheme, host))
    (hcl : lookupA st.clientCache (scheme ++ "://" ++ host) = none)
    (htr : lookupA st.transportCache (scheme ++ "://" ++ host) = some tid)
    (hpx : rb.proxy ≠ "") (hpp : o.proxyParses = true)
    (rb2 : RequestBuilder) (o2 : ConnOracle) (url2 scheme2 host2 : String)
    (st2 : ConnState) (cid2 : Nat)
    (hp2 : o2.parseURL url2 = some (scheme2, host2))
    (hcl2 : lookupA st2.clientCache (scheme2 ++ "://" ++ host2) = some cid2) :
    (connect rb o urlStr st).2.transports
      = st.transports.set tid
          { (st.transports.getD tid { maxIdleConnsPerHost := 0, proxy := none })
            with proxy := some rb.proxy } ∧
    connect rb2 o2 url2 st2 = (Except.ok cid2, st2) := by
  constructor
  · have hbne : (rb.proxy != "") = true := bne_iff_ne.mpr hpx
    unfold connect
    rw [hp]
    simp only [hcl, htr, hbne, hpp, Bool.and_self, if_true, ite_true]
    cases o.clInterfere <;> rfl
  · unfold connect
    rw [hp2]
    simp only [hcl2]

/-- Witness for C8 (amended): concrete in-place proxy write on a cached
transport, and a client-cache hit that changes nothing. -/
theorem C8_connect_proxy_amended_witness :
    ((connect { proxy := "http://p" }
        { parseURL := fun _ => some ("http", "h"), proxyParses := true,
          trInterfere := none, clInterfere := none }
        "http://h/x"
        { transports := [{ maxIdleConnsPerHost := 5, proxy := none }],
          transportCache := [("http://h", 0)], clients := [],
          clientCache := [] }).2.transports
      = ([{ maxIdleConnsPerHost := 5, proxy := none }] :
          List GoTransport).set 0
          { maxIdleConnsPerHost := 5, proxy := some "http://p" }) ∧
    connect { proxy := "http://p" }
        { parseURL := fun _ => some ("http", "h"), proxyParses := true,
          trInterfere := none, clInterfere := none }
        "http://h/x"
        { transports := [{ maxIdleConnsPerHost := 5, proxy := none }],
          transportCache := [("http://h", 0)],
          clients := [{ transport := 0, timeout := 3 }],
          clientCache := [("http://h", 0)] }
      = (Except.ok 0,
         { transports := [{ maxIdleConnsPerHost := 5, proxy := none }],
           transportCache := [("http://h", 0)],
           clients := [{ transport := 0, timeout := 3 }],
           clientCache := [("http://h", 0)] }) := by
  have h := C8_connect_proxy_amended { proxy := "http://p" }
    { parseURL := fun _ => some ("http", "h"), proxyParses := true,
      trInterfere := none, clInterfere := none }
    "http://h/x" "http" "h"
    { transports := [{ maxIdleConnsPerHost := 5, proxy := none }],
      transportCache := [("http://h", 0)], clients := [], clientCache := [] }
    0 rfl rfl rfl (by decide) rfl
    { proxy := "http://p" }
    { parseURL := fun _ => some ("http", "h"), proxyParses := true,
      trInterfere := none, clInterfere := none }
    "http://h/x" "http" "h"
    { transports := [{ maxIdleConnsPerHost := 5, proxy := none }],
      transportCache := [("http://h", 0)],
      clients := [{ transport := 0, timeout := 3 }],
      clientCache := [("http://h", 0)] }
    0 rfl rfl
  exact ⟨h.1.trans rfl, h.2⟩

theorem lookupA_insertNX_self {α : Type} (m : List (String × α)) (k : String)
    (v : α) (h : lookupA m k = none) :
    lookupA (insertNX m k v).1 k = some v := by
  unfold insertNX
  rw [h]
  simp [lookupA]

theorem insertNX_of_found {α : Type} (m : List (String × α)) (k : String)
    (v w : α) (h : lookupA m k = some w) : (insertNX m k v).1 = m := by
  unfold insertNX
  rw [h]

/-- C9 counterexample: the claim says that when the client `setNX` does
not take effect, `connect` discards the newly built client and returns
the one already published.  Starting from an empty state, a concurrent
caller publishes client 1 between the miss and the `setNX`; the source
ignores the `setNX` result and returns the locally built client 0 while
the cache holds client 1. -/
theorem C9_counterexample :
    (connect {}
        { parseURL := fun _ => some ("http", "h"), proxyParses := true,
          trInterfere := none,
          clInterfere := some { transport := 0, timeout := 7 } }
        "http://h/x" {}).1 = Except.ok 0 ∧
    lookupA (connect {}
        { parseURL := fun _ => some ("http", "h"), proxyParses := true,
          trInterfere := none,
          clInterfere := some { transport := 0, timeout := 7 } }
        "http://h/x" ({} : ConnState)).2.clientCache "http://h" = some 1 ∧
    (0 : Nat) ≠ 1 := by
  exact ⟨rfl, rfl, by decide⟩

/-- C9 (amended): when a concurrent caller wins the client `setNX` race,
`connect` still returns the client it just built for the current call
(the `setNX` result is ignored); the cache keeps the first-published
client, and any later `connect` for the same origin is a client-cache hit
returning that published client. -/
theorem C9_connect_race_amended
    (rb : RequestBuilder) (o : ConnOracle) (urlStr scheme host : String)
    (st : ConnState) (tid : Nat) (other : GoClient)
    (hp : o.parseURL urlStr = some (scheme, host))
    (hcl : lookupA st.clientCache (scheme ++ "://" ++ host) = none)
    (htr : lookupA st.transportCache (scheme ++ "://" ++ host) = some tid)
    (hint : o.clInterfere = some other)
    (rb2 : RequestBuilder) (o2 : ConnOracle) (url2 : String)
    (hp2 : o2.parseURL url2 = some (scheme, host)) :
    (connect rb o urlStr st).1 = Except.ok st.clients.length ∧
    lookupA (connect rb o urlStr st).2.clientCache (scheme ++ "://" ++ host)
      = some (st.clients.length + 1) ∧
    (connect rb2 o2 url2 (connect rb o urlStr st).2).1
      = Except.ok (st.clients.length + 1) := by
  have hself : ∀ v : Nat,
      lookupA (insertNX st.clientCache (scheme ++ "://" ++ host) v).1
        (scheme ++ "://" ++ host) = some v :=
    fun v => lookupA_insertNX_self st.clientCache _ v hcl
  have h1 : (connect rb o urlStr st).1 = Except.ok st.clients.length := by
    unfold connect
    rw [hp]
    simp only [hcl, htr, hint]
  have h2 : lookupA (connect rb o urlStr st).2.clientCache
      (scheme ++ "://" ++ host) = some (st.clients.length + 1) := by
    unfold connect
    rw [hp]
    simp only [hcl, htr, hint]
    split <;>
      (dsimp only
       rw [insertNX_of_found _ _ _ _ (hself _), hself _]
       simp)
  have h3 : ∀ st' : ConnState,
      lookupA st'.clientCache (scheme ++ "://" ++ host)
          = some (st.clients.length + 1) →
      (connect rb2 o2 url2 st').1 = Except.ok (st.clients.length + 1) := by
    intro st' hl
    unfold connect
    rw [hp2]
    simp only [hl]
  exact ⟨h1, h2, h3 _ h2⟩

/-- Witness for C9 (amended): losing the publish race still returns the
locally built client 0, the cache keeps client 1, and the next call
returns client 1. -/
theorem C9_connect_race_amended_witness :
    (connect {}
        { parseURL := fun _ => some ("http", "h"), proxyParses := true,
          trInterfere := none,
          clInterfere := some { transport := 0, timeout := 7 } }
        "http://h/x"
        { transports := [{ maxIdleConnsPerHost := 2, proxy := none }],
          transportCache := [("http://h", 0)], clients := [],
          clientCache := [] }).1 = Except.ok 0 ∧
    lookupA (connect {}
        { parseURL := fun _ => some ("http", "h"), proxyParses := true,
          trInterfere := none,
          clInterfere := some { transport := 0, timeout := 7 } }
        "http://h/x"
        { transports := [{ maxIdleConnsPerHost := 2, proxy := none }],
          transportCache := [("http://h", 0)], clients := [],
          clientCache := [] }).2.clientCache "http://h" = some 1 ∧
    (connect {}
        { parseURL := fun _ => some ("http", "h"), proxyParses := true,
          trInterfere := none, clInterfere := none }
        "http://h/x"
        (connect {}
          { parseURL := fun _ => some ("http", "h"), proxyParses := true,
            trInterfere := none,
            clInterfere := some { transport := 0, timeout := 7 } }
          "http://h/x"
          { transports := [{ maxIdleConnsPerHost := 2, proxy := none }],
            transportCache := [("http://h", 0)], clients := [],
            clientCache := [] }).2).1 = Except.ok 1 := by
  exact C9_connect_race_amended {}
    { parseURL := fun _ => some ("http", "h"), proxyParses := true,
      trInterfere := none,
      clInterfere := some { transport := 0, timeout := 7 } }
    "http://h/x" "http" "h"
    { transports := [{ maxIdleConnsPerHost := 2, proxy := none }],
      transportCache := [("http://h", 0)], clients := [], clientCache := [] }
    0 { transport := 0, timeout := 7 } rfl rfl rfl rfl {}
    { parseURL := fun _ => some ("http", "h"), proxyParses := true,
      trInterfere := none, clInterfere := none }
    "http://h/x" rfl

end Restful
